import Mathlib

/-!
Verification of the `justscale/observable` tracking-handle library.

The development is a shallow embedding of `src/proxy.ts`, `src/model.ts`,
`src/observable.ts` and `src/watch.ts`.  Mutable module-level JavaScript
state (the `proxyCache`, `metaCache`, `rootDirtySetMap`, the dirty sets,
the watcher registry and the targets themselves) is collected into one
explicit state record `St`; every source function becomes a Lean function
from `St` to `St`.  JavaScript `Map`s and `Set`s are modelled as
insertion-ordered association lists and duplicate-free lists, matching the
iteration-order semantics the source relies on.  Proxies (handles) are
identified with the id of their `ProxyMeta` record; raw (unwrapped)
objects are identified with an id into an object store.  Callbacks are
identified by ids whose behaviour is drawn from a small action type
covering the behaviours the properties exercise (doing nothing, or
unsubscribing a callback); an invocation log records deliveries.
-/

namespace Observable

/-- Association-list lookup, first binding wins (models `Map.get`). -/
def alGet {α β : Type} [DecidableEq α] : List (α × β) → α → Option β
  | [], _ => none
  | (k', v') :: t, k => if k' = k then some v' else alGet t k

/-- Association-list update: overwrite in place if the key is present,
append otherwise (models `Map.set`, which keeps insertion order). -/
def alSet {α β : Type} [DecidableEq α] : List (α × β) → α → β → List (α × β)
  | [], k, v => [(k, v)]
  | (k', v') :: t, k, v => if k' = k then (k, v) :: t else (k', v') :: alSet t k v

/-- Association-list removal (models `Map.delete`). -/
def alDel {α β : Type} [DecidableEq α] : List (α × β) → α → List (α × β)
  | [], _ => []
  | (k', v') :: t, k => if k' = k then t else (k', v') :: alDel t k

/-- Add to a duplicate-free insertion-ordered list (models `Set.add`). -/
def setAdd {α : Type} [DecidableEq α] (l : List α) (x : α) : List α :=
  if x ∈ l then l else l ++ [x]

/-- JavaScript values, restricted to the shapes the tracked structures of
the specification contain.  `obj` is a raw (unwrapped) object reference
into the object store; `handle` is a tracking proxy, identified with the
id of its `ProxyMeta`.  `nan` and `negZero` are kept apart from `num` so
that strict equality can be rendered faithfully. -/
inductive JSValue : Type where
  | undefined : JSValue
  | num : Int → JSValue
  | nan : JSValue
  | negZero : JSValue
  | str : String → JSValue
  | obj : Nat → JSValue
  | handle : Nat → JSValue
deriving DecidableEq, Repr

/-- Strict equality `===` on the modelled values: `NaN` is unequal to
itself, `-0` equals `0`, and objects and handles compare by identity. -/
def jsEq : JSValue → JSValue → Bool
  | .nan, _ => false
  | _, .nan => false
  | .negZero, .negZero => true
  | .negZero, .num n => n == 0
  | .num n, .negZero => n == 0
  | a, b => a == b

/-- Container categories with opaque internal state, as classified by
`BUILTIN_WITH_INTERNAL_SLOTS` and `isMutatingMethod` in `proxy.ts`. -/
inductive ContainerKind : Type where
  | mapK | weakMapK | setK | weakSetK | dateK | dataViewK | typedArrayK
deriving DecidableEq, Repr

/-- Kind of a raw object: a plain record/array, or a container instance
with internal slots (`hasInternalSlots` in `proxy.ts`). -/
inductive ObjKind : Type where
  | plain : ObjKind
  | container : ContainerKind → ObjKind
deriving DecidableEq, Repr

/-- A raw underlying object: its kind, its own enumerable data properties
and whether it accepts new properties (`false` for frozen/sealed). -/
structure RawObj : Type where
  kind : ObjKind
  fields : List (String × JSValue)
  extensible : Bool
deriving DecidableEq, Repr

/-- Weak back-reference to a parent node together with the key under which
this node is reachable from it (`ParentRef` in `types.ts`).  No garbage
collection happens in the model, so a `deref` always resolves. -/
structure ParentRef : Type where
  parentId : Nat
  key : String
deriving DecidableEq, Repr

/-- Per-node tracking record (`ProxyMeta` in `types.ts`).  `targetId`
points into the object store; `creationDirtySet` is the `dirtySet`
argument captured by the proxy's trap closures when the node was created;
`rootDirtySet` is the entry of `rootDirtySetMap`, present exactly for
roots. -/
structure Meta : Type where
  path : List String
  targetId : Nat
  creationDirtySet : Nat
  dirtySets : List Nat
  parents : List ParentRef
  children : List (String × Nat)
  rootDirtySet : Option Nat
deriving DecidableEq, Repr

/-- Behaviour of a registered callback when invoked: do nothing, or
unsubscribe the named callback from the named dirty set's watcher list
(the closure returned by `registerWatcher`). -/
inductive CbAction : Type where
  | nop : CbAction
  | unsub : Nat → Nat → CbAction
deriving DecidableEq, Repr

/-- The module-level state of the library: the object store, the
`proxyCache` (target id to meta id), the metas (also playing the role of
`metaCache`), the contents of every dirty set, the watcher registry,
callback behaviours, the delivery log, and fresh-id counters. -/
structure St : Type where
  objs : List (Nat × RawObj)
  proxyCache : List (Nat × Nat)
  metas : List (Nat × Meta)
  dirty : List (Nat × List String)
  watchers : List (Nat × List Nat)
  behav : List (Nat × CbAction)
  log : List (Nat × List String)
  nextMeta : Nat
  nextDirty : Nat
deriving DecidableEq, Repr

def emptySt : St := ⟨[], [], [], [], [], [], [], 0, 0⟩

/-- Contents of a dirty set (empty when the id has no entry yet). -/
def dirtyGet (st : St) (ds : Nat) : List String :=
  (alGet st.dirty ds).getD []

/-- One `dirtySet.add(s)` call on the dirty set with id `ds`. -/
def dirtyAdd (st : St) (ds : Nat) (s : String) : St :=
  { st with dirty := alSet st.dirty ds (setAdd (dirtyGet st ds) s) }

def setMeta (st : St) (mid : Nat) (m : Meta) : St :=
  { st with metas := alSet st.metas mid m }

def getMeta (st : St) (mid : Nat) : Option Meta :=
  alGet st.metas mid

/-- Dirty sets currently connected to a node (its `ownedChangeSets`). -/
def metaDirtySetsOf (st : St) (mid : Nat) : List Nat :=
  ((getMeta st mid).map Meta.dirtySets).getD []

/-- Value of a data property of a raw object (`Reflect.get` with the
target itself as receiver; missing properties read as `undefined`). -/
def objFieldGet (st : St) (oid : Nat) (prop : String) : JSValue :=
  match alGet st.objs oid with
  | some o => (alGet o.fields prop).getD .undefined
  | none => .undefined

/-- Property write on a raw object (`Reflect.set` on the target). -/
def objSetField (st : St) (oid : Nat) (prop : String) (v : JSValue) : St :=
  match alGet st.objs oid with
  | some o =>
      { st with objs := alSet st.objs oid { o with fields := alSet o.fields prop v } }
  | none => st

/-- Dot-joined rendering of a key sequence (`Array.prototype.join(".")`). -/
def joinDots (l : List String) : String := String.intercalate "." l

/-! Container Mutation Adapter: the classification tables of `proxy.ts`. -/

def MAP_MUTATORS : List String := ["set", "delete", "clear"]
def WEAKMAP_MUTATORS : List String := ["set", "delete"]
def SET_MUTATORS : List String := ["add", "delete", "clear"]
def WEAKSET_MUTATORS : List String := ["add", "delete"]
def DATE_MUTATORS : List String :=
  ["setDate", "setFullYear", "setHours", "setMilliseconds", "setMinutes",
   "setMonth", "setSeconds", "setTime", "setUTCDate", "setUTCFullYear",
   "setUTCHours", "setUTCMilliseconds", "setUTCMinutes", "setUTCMonth",
   "setUTCSeconds", "setYear"]
def TYPED_ARRAY_MUTATORS : List String :=
  ["fill", "set", "copyWithin", "sort", "reverse"]
def DATAVIEW_MUTATORS : List String :=
  ["setInt8", "setUint8", "setInt16", "setUint16", "setInt32", "setUint32",
   "setFloat32", "setFloat64", "setBigInt64", "setBigUint64"]

/-- Classification of a container method as mutating
(`isMutatingMethod` in `proxy.ts`). -/
def isMutatingMethod : ContainerKind → String → Bool
  | .mapK, p => MAP_MUTATORS.contains p
  | .weakMapK, p => WEAKMAP_MUTATORS.contains p
  | .setK, p => SET_MUTATORS.contains p
  | .weakSetK, p => WEAKSET_MUTATORS.contains p
  | .dateK, p => DATE_MUTATORS.contains p
  | .dataViewK, p => DATAVIEW_MUTATORS.contains p
  | .typedArrayK, p => TYPED_ARRAY_MUTATORS.contains p

/-! Dirty-Path Propagation Engine (`collectPathsWithDirtySets`,
`markDirtyWithParents`, `markContainerDirty` in `proxy.ts`). -/

/-- A path suffix paired with the dirty set of the root that produced it
(`PathWithDirtySet` in `proxy.ts`). -/
structure PathWithDirtySet : Type where
  path : List String
  dirtySet : Nat
deriving DecidableEq, Repr

/-- Accumulator of the traversal: results in discovery order and, per
dirty set, the path strings already recorded (`seenPathDirtySet`). -/
structure TravAcc : Type where
  results : List PathWithDirtySet
  seen : List (Nat × List String)
deriving DecidableEq, Repr

/-- The recursive `traverse` of `collectPathsWithDirtySets`: record the
current suffix against the node's own root dirty set if it is a root,
then loop over every parent edge in insertion order, skipping a parent
whose weak reference does not resolve or that is already on the current
branch's `pathStack`.  `fuel` bounds the recursion depth; the stack grows
by one distinct node per level, so any fuel larger than the number of
nodes is exact. -/
def traverseNode (st : St) : Nat → Nat → List String → List Nat → TravAcc → TravAcc
  | 0, _, _, _, acc => acc
  | fuel + 1, curId, suffix, stack, acc =>
    match getMeta st curId with
    | none => acc
    | some cur =>
      let acc :=
        match cur.rootDirtySet with
        | some ds =>
          let pathStr := joinDots suffix
          let seenPaths := (alGet acc.seen ds).getD []
          if pathStr ∈ seenPaths then acc
          else
            { results := acc.results ++ [⟨suffix, ds⟩]
              seen := alSet acc.seen ds (seenPaths ++ [pathStr]) }
        | none => acc
      cur.parents.foldl
        (fun a pr =>
          match getMeta st pr.parentId with
          | none => a
          | some _ =>
            if pr.parentId ∈ stack then a
            else traverseNode st fuel pr.parentId (pr.key :: suffix)
                  (stack ++ [pr.parentId]) a)
        acc

/-- Collect every (path suffix, dirty set) pair for the roots that can
reach `mid`, falling back to the node's own `dirtySets` with an empty
path when the walk found nothing (`collectPathsWithDirtySets`). -/
def collectPathsWithDirtySets (st : St) (mid : Nat) : List PathWithDirtySet :=
  match getMeta st mid with
  | none => []
  | some m =>
    let acc := traverseNode st (st.metas.length + 1) mid [] [mid] ⟨[], []⟩
    if acc.results.isEmpty then m.dirtySets.map (fun ds => ⟨[], ds⟩)
    else acc.results

/-- The ancestor-path loop `for (i = n; i > 0; i--) add(base.slice(0, i))`
performed on the dirty set `ds`, one `add` per iteration. -/
def addAncestorsSt (ds : Nat) (base : List String) : Nat → St → St
  | 0, st => st
  | i + 1, st => addAncestorsSt ds base i (dirtyAdd st ds (joinDots (base.take (i + 1))))

/-! Notification Engine (`watch.ts`). -/

/-- Invoke one callback: append the delivery to the log and perform the
callback's behaviour.  The `unsub` behaviour is the closure returned by
`registerWatcher`, which deletes the callback from the watcher list. -/
def cbInvoke (st : St) (cb : Nat) (paths : List String) : St :=
  let st := { st with log := st.log ++ [(cb, paths)] }
  match alGet st.behav cb with
  | some (CbAction.unsub ds target) =>
      { st with
          watchers := alSet st.watchers ds
            (((alGet st.watchers ds).getD []).filter (fun c => c ≠ target)) }
  | _ => st

/-- Iteration of `for (const callback of watchers)` over the live watcher
set: repeatedly invoke the first not-yet-visited callback still present
in the registry.  This renders the ECMAScript `Set` iterator contract:
entries removed before being reached are skipped, entries already visited
are not revisited (no behaviour in `CbAction` re-adds a callback). -/
def notifyLoop (dsId : Nat) (paths : List String) :
    Nat → St → List Nat → St
  | 0, st, _ => st
  | fuel + 1, st, visited =>
    match ((alGet st.watchers dsId).getD []).find? (fun c => decide (c ∉ visited)) with
    | none => st
    | some c => notifyLoop dsId paths fuel (cbInvoke st c paths) (visited ++ [c])

/-- Notify all watchers of a dirty set with a snapshot of its full current
contents (`notifyWatchers` in `watch.ts`). -/
def notifyWatchers (st : St) (ds : Nat) : St :=
  let ws := (alGet st.watchers ds).getD []
  if ws.length = 0 then st
  else notifyLoop ds (dirtyGet st ds) (ws.length + 1) st []

/-- Register a callback for a dirty set (`registerWatcher`); `Set.add`
deduplicates and keeps insertion order. -/
def registerWatcher (st : St) (ds : Nat) (cb : Nat) : St :=
  let ws := (alGet st.watchers ds).getD []
  if cb ∈ ws then st
  else { st with watchers := alSet st.watchers ds (ws ++ [cb]) }

/-- Explicit unsubscription from outside a delivery (the same closure as
the `unsub` behaviour). -/
def unsubscribe (st : St) (ds : Nat) (cb : Nat) : St :=
  { st with
      watchers := alSet st.watchers ds
        (((alGet st.watchers ds).getD []).filter (fun c => c ≠ cb)) }

/-- Notify every distinct modified dirty set once, in insertion order. -/
def notifyMods (p : St × List Nat) : St :=
  p.2.foldl notifyWatchers p.1

/-- Body of the marking loop of `markDirtyWithParents` for one collected
(path, dirty set) pair: add the full path (base path plus the written
key), record the dirty set as modified, then add every ancestor prefix of
the base path. -/
def markStep (key : String) (p : St × List Nat) (pwd : PathWithDirtySet) : St × List Nat :=
  (addAncestorsSt pwd.dirtySet pwd.path pwd.path.length
      (dirtyAdd p.1 pwd.dirtySet (joinDots (pwd.path ++ [key]))),
   if pwd.dirtySet ∈ p.2 then p.2 else p.2 ++ [pwd.dirtySet])

/-- Mark the written key dirty, with all ancestor paths, in every root's
dirty set computed by the collection walk, then notify each modified
dirty set once (`markDirtyWithParents` in `proxy.ts`). -/
def markDirtyWithParents (st : St) (mid : Nat) (key : String) : St :=
  notifyMods ((collectPathsWithDirtySets st mid).foldl (markStep key) (st, []))

/-- Body of the marking loop of `markContainerDirty`: add the container's
own path only when it is non-empty, then add the strict ancestor
prefixes. -/
def containerStep (p : St × List Nat) (pwd : PathWithDirtySet) : St × List Nat :=
  let p1 : St × List Nat :=
    if 0 < pwd.path.length then
      (dirtyAdd p.1 pwd.dirtySet (joinDots pwd.path),
       if pwd.dirtySet ∈ p.2 then p.2 else p.2 ++ [pwd.dirtySet])
    else p
  (addAncestorsSt pwd.dirtySet pwd.path (pwd.path.length - 1) p1.1, p1.2)

/-- Mark a container node dirty at its own path, with ancestors, in every
reachable root's dirty set, then notify (`markContainerDirty`). -/
def markContainerDirty (st : St) (mid : Nat) : St :=
  notifyMods ((collectPathsWithDirtySets st mid).foldl containerStep (st, []))

/-! Tracked-Handle Factory (`createTrackedProxy` and the proxy traps). -/

/-- Add a parent edge unless this exact parent-and-key combination is
already registered (`addParentRef` in `proxy.ts`). -/
def addParentRef (st : St) (mid : Nat) (pid : Nat) (key : String) : St :=
  match getMeta st mid with
  | none => st
  | some m =>
    if m.parents.any (fun pr => pr.parentId == pid && pr.key == key) then st
    else setMeta st mid { m with parents := m.parents ++ [⟨pid, key⟩] }

/-- Record `cid` as the child of `pid` under `key` (`parent.children.set`). -/
def childSet (st : St) (pid : Nat) (key : String) (cid : Nat) : St :=
  match getMeta st pid with
  | none => st
  | some m => setMeta st pid { m with children := alSet m.children key cid }

/-- Connect a dirty set to a node and, unless it was already connected,
to all of its current children, recursively (`propagateDirtySets` in
`proxy.ts`).  The already-connected guard bounds the recursion; `fuel`
larger than the number of nodes is exact. -/
def propagateDirtySets : Nat → St → Nat → Nat → St
  | 0, st, _, _ => st
  | fuel + 1, st, mid, ds =>
    match getMeta st mid with
    | none => st
    | some m =>
      if ds ∈ m.dirtySets then st
      else
        m.children.foldl (fun s c => propagateDirtySets fuel s c.2 ds)
          (setMeta st mid { m with dirtySets := m.dirtySets ++ [ds] })

/-- Build (or reuse) the canonical proxy for a raw object
(`createTrackedProxy` in `proxy.ts`): on a `proxyCache` hit, union the
new dirty set into the cached node and its descendants and register the
new parent edge; otherwise allocate a fresh node, registering it in
`rootDirtySetMap` when it has no parent.  Returns the meta id of the
handle. -/
def createTrackedProxy (st : St) (oid : Nat) (path : List String) (ds : Nat)
    (parent : Option (Nat × String)) : St × Nat :=
  match alGet st.proxyCache oid with
  | some mid =>
    let st := propagateDirtySets (st.metas.length + 1) st mid ds
    let st :=
      match parent with
      | some (pid, key) => childSet (addParentRef st mid pid key) pid key mid
      | none => st
    (st, mid)
  | none =>
    let mid := st.nextMeta
    let m : Meta :=
      { path := path
        targetId := oid
        creationDirtySet := ds
        dirtySets := [ds]
        parents := match parent with | some (pid, key) => [⟨pid, key⟩] | none => []
        children := []
        rootDirtySet := match parent with | some _ => none | none => some ds }
    ({ st with
        metas := st.metas ++ [(mid, m)]
        nextMeta := mid + 1
        proxyCache := alSet st.proxyCache oid mid }, mid)

/-- The `get` trap of the proxy for value-returning reads, restricted to
the modelled value space (no function-typed field values; container
method lookup is `containerMethodCall` below).  For a plain target:
return the cached child handle if one exists; wrap a raw object value on
first access with this node as parent, caching it; connect an
already-wrapped value (a handle stored in the field) to this tree,
propagating all of this node's dirty sets to it; return every other
value raw.  For a container target all access resolves directly against
the underlying instance and changes no tracking state. -/
def proxyGetWrap (st : St) (mid : Nat) (prop : String) : St × JSValue :=
  match getMeta st mid with
  | none => (st, .undefined)
  | some m =>
    match alGet st.objs m.targetId with
    | none => (st, .undefined)
    | some o =>
      match o.kind with
      | ObjKind.container _ => (st, (alGet o.fields prop).getD .undefined)
      | ObjKind.plain =>
        let value := (alGet o.fields prop).getD .undefined
        match alGet m.children prop with
        | some cid => (st, .handle cid)
        | none =>
          match value with
          | JSValue.handle emid =>
            match getMeta st emid with
            | some _ =>
              let st := addParentRef st emid mid prop
              let st := childSet st mid prop emid
              let st := (metaDirtySetsOf st mid).foldl
                (fun s ds => propagateDirtySets (s.metas.length + 1) s emid ds) st
              (st, .handle emid)
            | none => (st, value)
          | JSValue.obj oid =>
            let pr := createTrackedProxy st oid (m.path ++ [prop]) m.creationDirtySet
              (some (mid, prop))
            (childSet pr.1 mid prop pr.2, .handle pr.2)
          | v => (st, v)

/-- Tail of the `set` trap once the same-proxy guard has fallen through:
clear the cached child for the key, write the underlying field, and mark
dirty exactly when the old and new values differ under strict
equality. -/
def proxySetWrite (st : St) (mid : Nat) (m : Meta) (prop : String) (v : JSValue)
    (oldValue : JSValue) : St :=
  let st := setMeta st mid { m with children := alDel m.children prop }
  let st := objSetField st m.targetId prop v
  if jsEq oldValue v then st else markDirtyWithParents st mid prop

/-- The `set` trap of the proxy (`set` in `proxy.ts`): read the old value
from the target, return unchanged when the assigned value is the cached
child's own handle, otherwise delegate to `proxySetWrite`. -/
def proxySet (st : St) (mid : Nat) (prop : String) (v : JSValue) : St :=
  match getMeta st mid with
  | none => st
  | some m =>
    let oldValue := objFieldGet st m.targetId prop
    match alGet m.children prop with
    | some cid =>
      if jsEq v (.handle cid) then st
      else proxySetWrite st mid m prop v oldValue
    | none => proxySetWrite st mid m prop v oldValue

/-- Invocation of a property of a container target through the proxy
(`get` trap, `hasInternalSlots` branch): a method classified as mutating
is wrapped so the real call is followed by `markContainerDirty`; every
other method or property access passes through with no tracking
effect.  The container's opaque internal state is outside the model, so
only the tracking effect is rendered. -/
def containerMethodCall (st : St) (mid : Nat) (prop : String) : St :=
  match getMeta st mid with
  | none => st
  | some m =>
    match alGet st.objs m.targetId with
    | none => st
    | some o =>
      match o.kind with
      | ObjKind.plain => st
      | ObjKind.container k =>
        if isMutatingMethod k prop then markContainerDirty st mid else st

/-- Eager wrapping pass run at construction (`deepTraverse` in
`observable.ts` / `model.ts`): read every key through the handle so all
nested structured values are wrapped and all shared-edge registrations
exist before any mutation, recursing into every value that comes back as
a handle.  `visited` prevents revisiting a handle. -/
def deepTraverse : Nat → St → Nat → List Nat → St × List Nat
  | 0, st, _, visited => (st, visited)
  | fuel + 1, st, mid, visited =>
    if mid ∈ visited then (st, visited)
    else
      let visited := visited ++ [mid]
      match getMeta st mid with
      | none => (st, visited)
      | some m =>
        match alGet st.objs m.targetId with
        | none => (st, visited)
        | some o =>
          (o.fields.map Prod.fst).foldl
            (fun (p : St × List Nat) k =>
              let pr := proxyGetWrap p.1 mid k
              match pr.2 with
              | JSValue.handle cid => deepTraverse fuel pr.1 cid p.2
              | _ => (pr.1, p.2))
            (st, visited)

/-! Tracker constructors and change-set operations (`observable.ts`,
`model.ts`). -/

/-- Construct a standalone observable over a raw object
(`createObservable`): allocate a fresh dirty set, build the root proxy,
run the eager wrapping pass, then attach the internals as a hidden
property on the underlying object.  That last step throws a `TypeError`
when the object is not extensible (frozen or sealed); the caches mutated
by the earlier steps are module-level and are not rolled back.  Returns
the state after the attempt and, on success, the root meta id and the
dirty set id; `none` renders the thrown construction error.  `createModel`
attaches its internals to the schema-parsed structure the same way. -/
def createObservable (st : St) (oid : Nat) : St × Option (Nat × Nat) :=
  let ds := st.nextDirty
  let st := { st with nextDirty := ds + 1, dirty := alSet st.dirty ds [] }
  let pr := createTrackedProxy st oid [] ds none
  let st := (deepTraverse (pr.1.objs.length + 1) pr.1 pr.2 []).1
  match alGet st.objs oid with
  | some o => if o.extensible then (st, some (pr.2, ds)) else (st, none)
  | none => (st, none)

/-- Empty a tracker's dirty set without notifying (`markClean` in
`model.ts` / `observable.ts`: `dirty.clear()`). -/
def markClean (st : St) (ds : Nat) : St :=
  { st with dirty := alSet st.dirty ds [] }

/-- Insertion-ordered dirty paths of a tracker (`getDirtyPaths`). -/
def getDirtyPaths (st : St) (ds : Nat) : List String :=
  dirtyGet st ds

/-- Dirtiness query of a tracker (`isDirty`: `dirty.size > 0`). -/
def isDirty (st : St) (ds : Nat) : Bool :=
  !(dirtyGet st ds).isEmpty

/-! Derived lookups used by the statements below. -/

/-- Cached child node of `mid` under `prop`, if any. -/
def childLookup (st : St) (mid : Nat) (prop : String) : Option Nat :=
  match getMeta st mid with
  | some m => alGet m.children prop
  | none => none

/-- The old value the `set` trap reads from the target before writing. -/
def oldValueAt (st : St) (mid : Nat) (prop : String) : JSValue :=
  match getMeta st mid with
  | some m => objFieldGet st m.targetId prop
  | none => .undefined

/-- Kind of the underlying target of a node. -/
def metaKindOf (st : St) (mid : Nat) : Option ObjKind :=
  match getMeta st mid with
  | none => none
  | some m =>
    match alGet st.objs m.targetId with
    | none => none
    | some o => some o.kind

/-! Concrete scenarios.  Each scenario starts from its own initial object
store and plays the operations of the corresponding spec example through
the embedded library functions. -/

/-- Initial state with a given object store and callback behaviours. -/
def mkSt (objs : List (Nat × RawObj)) (behav : List (Nat × CbAction)) : St :=
  { emptySt with objs := objs, behav := behav }

/-- Scenario for the dirty-on-change example: a root of shape
`{a: {b: {c: 0}}}`. -/
def c1St0 : St := mkSt
  [(0, ⟨.plain, [("a", .obj 1)], true⟩),
   (1, ⟨.plain, [("b", .obj 2)], true⟩),
   (2, ⟨.plain, [("c", .num 0)], true⟩)] []

def c1Mk : St × Option (Nat × Nat) := createObservable c1St0 0

/-- Read `root.a` (returns the handle with meta id 1). -/
def c1GA : St × JSValue := proxyGetWrap c1Mk.1 0 "a"

/-- Read `root.a.b` (returns the handle with meta id 2). -/
def c1GB : St × JSValue := proxyGetWrap c1GA.1 1 "b"

/-- State after `root.a.b.c = 1`. -/
def c1Fin : St := proxySet c1GB.1 2 "c" (.num 1)

/-- Scenario for the strict-equality edge cases: `{z: 0, w: NaN}`. -/
def nzSt0 : St := mkSt [(5, ⟨.plain, [("z", .num 0), ("w", .nan)], true⟩)] []

def nzMk : St × Option (Nat × Nat) := createObservable nzSt0 5

/-- State after writing `-0` over `0`: not a change. -/
def nzA : St := proxySet nzMk.1 0 "z" .negZero

/-- State after writing `NaN` over `NaN`: counts as a change. -/
def nzB : St := proxySet nzA 0 "w" .nan

/-- Scenario for multi-root fan-out: `shared = {value: 1}` (object 10)
placed under key `foo` in tracker 1 (object 11) and key `bar` in
tracker 2 (object 12). -/
def c2St0 : St := mkSt
  [(10, ⟨.plain, [("value", .num 1)], true⟩),
   (11, ⟨.plain, [], true⟩),
   (12, ⟨.plain, [], true⟩)] []

/-- Wrap the shared object once (meta 0, dirty set 0). -/
def c2A : St × Option (Nat × Nat) := createObservable c2St0 10

/-- Place the shared handle under `foo` of tracker 1's raw target. -/
def c2B : St := objSetField c2A.1 11 "foo" (.handle 0)

/-- Construct tracker 1 (meta 1, dirty set 1). -/
def c2C : St × Option (Nat × Nat) := createObservable c2B 11

/-- Place the shared handle under `bar` of tracker 2's raw target. -/
def c2D : St := objSetField c2C.1 12 "bar" (.handle 0)

/-- Construct tracker 2 (meta 2, dirty set 2). -/
def c2E : St × Option (Nat × Nat) := createObservable c2D 12

/-- Read tracker 1's `foo`: the canonical shared handle. -/
def c2G : St × JSValue := proxyGetWrap c2E.1 1 "foo"

/-- State after writing `value = 99` through tracker 1's view. -/
def c2W : St := proxySet c2G.1 0 "value" (.num 99)

/-- Scenario for diamond fan-in: one root (object 20) reaching object 23
via `x.p` and via `y.q`. -/
def c3St0 : St := mkSt
  [(20, ⟨.plain, [("x", .obj 21), ("y", .obj 22)], true⟩),
   (21, ⟨.plain, [("p", .obj 23)], true⟩),
   (22, ⟨.plain, [("q", .obj 23)], true⟩),
   (23, ⟨.plain, [("v", .num 0)], true⟩)] []

/-- Construct the diamond tracker: metas are root 0, `x` 1, the shared
node 2 (first reached via `x.p`), `y` 3. -/
def c3Mk : St × Option (Nat × Nat) := createObservable c3St0 20

/-- State after mutating the shared node: `root.x.p.v = 1`. -/
def c3Fin : St := proxySet c3Mk.1 2 "v" (.num 1)

/-- Scenario for container granularity: `{a: {m: Map}}` with the map as
object 82 (meta 2). -/
def c4St0 : St := mkSt
  [(80, ⟨.plain, [("a", .obj 81)], true⟩),
   (81, ⟨.plain, [("m", .obj 82)], true⟩),
   (82, ⟨.container .mapK, [], true⟩)] []

def c4Mk : St × Option (Nat × Nat) := createObservable c4St0 80

/-- State after invoking the mutating `set` method of the tracked map. -/
def c4Fin : St := containerMethodCall c4Mk.1 2 "set"

/-- Scenario for the no-op identical write: `{child: {n: 0}}`. -/
def c5St0 : St := mkSt
  [(55, ⟨.plain, [("child", .obj 56)], true⟩),
   (56, ⟨.plain, [("n", .num 0)], true⟩)] []

def c5A : St × Option (Nat × Nat) := createObservable c5St0 55

/-- Scenario refuting unconditional exactly-once delivery: callback 1
unsubscribes callback 2 during delivery. -/
def c6ceSt0 : St := mkSt [(50, ⟨.plain, [("x", .num 0)], true⟩)]
  [(1, .unsub 0 2), (2, .nop)]

def c6ceA : St × Option (Nat × Nat) := createObservable c6ceSt0 50

/-- Both callbacks subscribed before the mutation. -/
def c6ceB : St := registerWatcher (registerWatcher c6ceA.1 0 1) 0 2

/-- State after the mutation `x = 1` and its delivery. -/
def c6ceFin : St := proxySet c6ceB 0 "x" (.num 1)

/-- Scenario for batched cumulative notification: `{z: 0, a: {b: {c: 0}}}`
with a pre-existing dirty path `z` and two passive callbacks. -/
def c6amSt0 : St := mkSt
  [(60, ⟨.plain, [("z", .num 0), ("a", .obj 61)], true⟩),
   (61, ⟨.plain, [("b", .obj 62)], true⟩),
   (62, ⟨.plain, [("c", .num 0)], true⟩)]
  [(5, .nop), (6, .nop)]

def c6amA : St × Option (Nat × Nat) := createObservable c6amSt0 60

/-- Seed the change-set with `z` before any callback is registered. -/
def c6amB : St := proxySet c6amA.1 0 "z" (.num 1)

def c6amC : St := registerWatcher (registerWatcher c6amB 0 5) 0 6

def c6amD : St × JSValue := proxyGetWrap c6amC 0 "a"

def c6amE : St × JSValue := proxyGetWrap c6amD.1 1 "b"

/-- State after `root.a.b.c = 1`: one mutation adding three new paths. -/
def c6amFin : St := proxySet c6amE.1 2 "c" (.num 1)

/-- Scenario refuting delivery to all initially-registered callbacks:
callback 3 unsubscribes the not-yet-reached callback 4 mid-delivery. -/
def c7ceSt0 : St := mkSt [(70, ⟨.plain, [("y", .num 0)], true⟩)]
  [(3, .unsub 0 4), (4, .nop)]

def c7ceA : St × Option (Nat × Nat) := createObservable c7ceSt0 70

def c7ceB : St := registerWatcher (registerWatcher c7ceA.1 0 3) 0 4

def c7ceFin : St := proxySet c7ceB 0 "y" (.num 1)

/-- Scenario for self-unsubscription during delivery (the shape the
repository's own test exercises): callback 7 unsubscribes itself. -/
def c7amSt0 : St := mkSt [(71, ⟨.plain, [("y", .num 0)], true⟩)]
  [(7, .unsub 0 7), (8, .nop)]

def c7amA : St × Option (Nat × Nat) := createObservable c7amSt0 71

def c7amB : St := registerWatcher (registerWatcher c7amA.1 0 7) 0 8

/-- After the first mutation: both callbacks still delivered. -/
def c7amC : St := proxySet c7amB 0 "y" (.num 1)

/-- After a second mutation: only callback 8 remains. -/
def c7amFin : St := proxySet c7amC 0 "y" (.num 2)

/-- Scenario where a callback unsubscribes an already-invoked callback. -/
def c7bSt0 : St := mkSt [(72, ⟨.plain, [("y", .num 0)], true⟩)]
  [(11, .nop), (12, .unsub 0 11)]

def c7bA : St × Option (Nat × Nat) := createObservable c7bSt0 72

def c7bB : St := registerWatcher (registerWatcher c7bA.1 0 11) 0 12

def c7bFin : St := proxySet c7bB 0 "y" (.num 1)

/-- Scenario for change-set propagation: shared object 40 (with an
existing child, object 43) wrapped as its own observable, then connected
to a second tracker, then given a brand-new child (object 42) wrapped
only afterwards. -/
def c8St0 : St := mkSt
  [(40, ⟨.plain, [("inner", .obj 43)], true⟩),
   (43, ⟨.plain, [("w", .num 0)], true⟩),
   (41, ⟨.plain, [], true⟩),
   (42, ⟨.plain, [("z", .num 1)], true⟩)] []

/-- Wrap the shared object (meta 0, child `inner` meta 1, dirty set 0). -/
def c8A : St × Option (Nat × Nat) := createObservable c8St0 40

def c8B : St := objSetField c8A.1 41 "s" (.handle 0)

/-- Second tracker (meta 2, dirty set 1); its construction connects dirty
set 1 to the shared node and its then-existing descendants. -/
def c8C : St × Option (Nat × Nat) := createObservable c8B 41

/-- Assign a brand-new raw object under `k` of the shared node. -/
def c8D : St := proxySet c8C.1 0 "k" (.obj 42)

/-- First read of `k` wraps the new child (meta 3). -/
def c8E : St × JSValue := proxyGetWrap c8D 0 "k"

/-- Scenario for frozen-target construction: object 90 is frozen. -/
def c9St0 : St := mkSt [(90, ⟨.plain, [("value", .num 42)], false⟩)] []

def c9R : St × Option (Nat × Nat) := createObservable c9St0 90

/-- Extensible companion of the frozen scenario. -/
def c9okSt0 : St := mkSt [(91, ⟨.plain, [("value", .num 42)], true⟩)] []

def c9okR : St × Option (Nat × Nat) := createObservable c9okSt0 91

/-- Scenario for a tracker whose root target is itself a container: a
bare map (object 95) with a subscribed callback. -/
def c10St0 : St := mkSt [(95, ⟨.container .mapK, [], true⟩)] [(9, .nop)]

def c10A : St × Option (Nat × Nat) := createObservable c10St0 95

def c10B : St := registerWatcher c10A.1 0 9

/-- State after invoking the mutating `set` method on the root handle. -/
def c10Fin : St := containerMethodCall c10B 0 "set"

/-! Helper lemmas about the association-list and set primitives. -/

theorem alGet_alSet_self {α β : Type} [DecidableEq α] (l : List (α × β)) (k : α) (v : β) :
    alGet (alSet l k v) k = some v := by
  induction l with
  | nil => simp [alGet, alSet]
  | cons p t ih =>
    obtain ⟨k', v'⟩ := p
    by_cases hk : k' = k
    · subst hk
      simp [alSet, alGet]
    · simp [alSet, alGet, hk, ih]

theorem alGet_alSet_ne {α β : Type} [DecidableEq α] (l : List (α × β)) (k k'' : α) (v : β)
    (h : k'' ≠ k) : alGet (alSet l k v) k'' = alGet l k'' := by
  have hne : ¬ k = k'' := fun hh => h hh.symm
  induction l with
  | nil =>
    simp only [alSet, alGet]
    rw [if_neg hne]
  | cons p t ih =>
    obtain ⟨k', v'⟩ := p
    by_cases hk : k' = k
    · subst hk
      simp only [alSet, if_pos rfl, alGet]
      rw [if_neg hne, if_neg hne]
    · simp only [alSet, if_neg hk, alGet]
      by_cases hk2 : k' = k''
      · rw [if_pos hk2, if_pos hk2]
      · rw [if_neg hk2, if_neg hk2, ih]

theorem mem_setAdd_self {α : Type} [DecidableEq α] (l : List α) (x : α) : x ∈ setAdd l x := by
  unfold setAdd
  split
  · assumption
  · simp

theorem mem_setAdd_of_mem {α : Type} [DecidableEq α] (l : List α) (x y : α) (h : y ∈ l) :
    y ∈ setAdd l x := by
  unfold setAdd
  split
  · exact h
  · simp [h]

theorem dirtyGet_dirtyAdd_self (st : St) (ds : Nat) (s : String) :
    dirtyGet (dirtyAdd st ds s) ds = setAdd (dirtyGet st ds) s := by
  unfold dirtyAdd dirtyGet
  simp [alGet_alSet_self]

theorem dirtyGet_dirtyAdd_ne (st : St) (ds ds' : Nat) (s : String) (h : ds' ≠ ds) :
    dirtyGet (dirtyAdd st ds s) ds' = dirtyGet st ds' := by
  unfold dirtyAdd dirtyGet
  simp [alGet_alSet_ne _ _ _ _ h]

theorem mem_dirtyAdd (st : St) (ds ds' : Nat) (s x : String) (h : x ∈ dirtyGet st ds') :
    x ∈ dirtyGet (dirtyAdd st ds s) ds' := by
  by_cases hds : ds' = ds
  · subst hds
    rw [dirtyGet_dirtyAdd_self]
    exact mem_setAdd_of_mem _ _ _ h
  · rw [dirtyGet_dirtyAdd_ne _ _ _ _ hds]
    exact h

theorem mem_dirtyAdd_self (st : St) (ds : Nat) (s : String) :
    s ∈ dirtyGet (dirtyAdd st ds s) ds := by
  rw [dirtyGet_dirtyAdd_self]
  exact mem_setAdd_self _ _

theorem addAncestorsSt_mono (ds : Nat) (base : List String) :
    ∀ (n : Nat) (st : St) (ds' : Nat) (x : String), x ∈ dirtyGet st ds' →
      x ∈ dirtyGet (addAncestorsSt ds base n st) ds' := by
  intro n
  induction n with
  | zero =>
    intro st ds' x h
    exact h
  | succ i ih =>
    intro st ds' x h
    simp only [addAncestorsSt]
    exact ih _ _ _ (mem_dirtyAdd _ _ _ _ _ h)

theorem addAncestorsSt_adds (ds : Nat) (base : List String) :
    ∀ (n : Nat) (st : St) (i : Nat), 0 < i → i ≤ n →
      joinDots (base.take i) ∈ dirtyGet (addAncestorsSt ds base n st) ds := by
  intro n
  induction n with
  | zero =>
    intro st i h1 h2
    exact absurd h2 (by omega)
  | succ m ih =>
    intro st i h1 h2
    simp only [addAncestorsSt]
    rcases Nat.lt_or_ge i (m + 1) with hlt | hge
    · exact ih _ i h1 (by omega)
    · have hi : i = m + 1 := by omega
      subst hi
      exact addAncestorsSt_mono ds base m _ ds _ (mem_dirtyAdd_self st ds _)

/-! Preservation of the dirty-set component by notification delivery. -/

theorem cbInvoke_dirty (st : St) (c : Nat) (paths : List String) :
    (cbInvoke st c paths).dirty = st.dirty := by
  simp only [cbInvoke]
  split <;> rfl

theorem cbInvoke_log (st : St) (c : Nat) (paths : List String) :
    (cbInvoke st c paths).log = st.log ++ [(c, paths)] := by
  simp only [cbInvoke]
  split <;> rfl

theorem notifyLoop_dirty (dsId : Nat) (paths : List String) :
    ∀ (fuel : Nat) (st : St) (visited : List Nat),
      (notifyLoop dsId paths fuel st visited).dirty = st.dirty := by
  intro fuel
  induction fuel with
  | zero =>
    intro st visited
    rfl
  | succ n ih =>
    intro st visited
    unfold notifyLoop
    split
    · rfl
    · rw [ih, cbInvoke_dirty]

theorem notifyWatchers_dirty (st : St) (ds : Nat) :
    (notifyWatchers st ds).dirty = st.dirty := by
  simp only [notifyWatchers]
  split
  · rfl
  · exact notifyLoop_dirty _ _ _ _ _

theorem notifyMods_dirty :
    ∀ (mods : List Nat) (st : St), (mods.foldl notifyWatchers st).dirty = st.dirty := by
  intro mods
  induction mods with
  | nil =>
    intro st
    rfl
  | cons a t ih =>
    intro st
    rw [List.foldl_cons, ih, notifyWatchers_dirty]

theorem dirtyGet_notifyMods (p : St × List Nat) (ds : Nat) :
    dirtyGet (notifyMods p) ds = dirtyGet p.1 ds := by
  unfold dirtyGet notifyMods
  rw [notifyMods_dirty]

/-! Lemmas about the marking fold of `markDirtyWithParents`. -/

theorem markStep_mono (key : String) (p : St × List Nat) (pwd : PathWithDirtySet)
    (ds' : Nat) (x : String) (h : x ∈ dirtyGet p.1 ds') :
    x ∈ dirtyGet (markStep key p pwd).1 ds' := by
  unfold markStep
  exact addAncestorsSt_mono _ _ _ _ _ _ (mem_dirtyAdd _ _ _ _ _ h)

theorem markStep_adds_full (key : String) (p : St × List Nat) (pwd : PathWithDirtySet) :
    joinDots (pwd.path ++ [key]) ∈ dirtyGet (markStep key p pwd).1 pwd.dirtySet := by
  unfold markStep
  exact addAncestorsSt_mono _ _ _ _ _ _ (mem_dirtyAdd_self _ _ _)

theorem markStep_adds_take (key : String) (p : St × List Nat) (pwd : PathWithDirtySet)
    (i : Nat) (h1 : 0 < i) (h2 : i ≤ pwd.path.length) :
    joinDots (pwd.path.take i) ∈ dirtyGet (markStep key p pwd).1 pwd.dirtySet := by
  unfold markStep
  exact addAncestorsSt_adds _ _ _ _ i h1 h2

theorem foldl_markStep_mono (key : String) :
    ∀ (l : List PathWithDirtySet) (p : St × List Nat) (ds' : Nat) (x : String),
      x ∈ dirtyGet p.1 ds' → x ∈ dirtyGet (l.foldl (markStep key) p).1 ds' := by
  intro l
  induction l with
  | nil =>
    intro p ds' x h
    exact h
  | cons a t ih =>
    intro p ds' x h
    rw [List.foldl_cons]
    exact ih _ _ _ (markStep_mono key p a ds' x h)

theorem foldl_markStep_adds (key : String) :
    ∀ (l : List PathWithDirtySet) (p : St × List Nat) (pwd : PathWithDirtySet), pwd ∈ l →
      joinDots (pwd.path ++ [key]) ∈ dirtyGet (l.foldl (markStep key) p).1 pwd.dirtySet ∧
      ∀ i, 0 < i → i ≤ pwd.path.length →
        joinDots (pwd.path.take i) ∈ dirtyGet (l.foldl (markStep key) p).1 pwd.dirtySet := by
  intro l
  induction l with
  | nil =>
    intro p pwd h
    cases h
  | cons a t ih =>
    intro p pwd h
    rw [List.foldl_cons]
    rcases List.mem_cons.mp h with rfl | hmem
    · constructor
      · exact foldl_markStep_mono key t _ _ _ (markStep_adds_full key p pwd)
      · intro i h1 h2
        exact foldl_markStep_mono key t _ _ _ (markStep_adds_take key p pwd i h1 h2)
    · exact ih _ _ hmem

/-! Lemmas about the marking fold of `markContainerDirty`. -/

theorem containerStep_of_nil (p : St × List Nat) (pwd : PathWithDirtySet)
    (h : pwd.path = []) : containerStep p pwd = p := by
  unfold containerStep
  rw [h]
  simp [addAncestorsSt]

theorem foldl_containerStep_of_nil :
    ∀ (l : List PathWithDirtySet) (p : St × List Nat),
      (∀ pwd ∈ l, pwd.path = []) → l.foldl containerStep p = p := by
  intro l
  induction l with
  | nil =>
    intro p _
    rfl
  | cons a t ih =>
    intro p h
    rw [List.foldl_cons, containerStep_of_nil p a (h a (by simp))]
    exact ih p (fun pwd hp => h pwd (by simp [hp]))

/-! Lemmas about the structural frame of the `set` trap. -/

theorem setMeta_dirty (st : St) (mid : Nat) (m : Meta) : (setMeta st mid m).dirty = st.dirty := rfl

theorem setMeta_log (st : St) (mid : Nat) (m : Meta) : (setMeta st mid m).log = st.log := rfl

theorem objSetField_dirty (st : St) (oid : Nat) (prop : String) (v : JSValue) :
    (objSetField st oid prop v).dirty = st.dirty := by
  unfold objSetField
  split <;> rfl

theorem objSetField_log (st : St) (oid : Nat) (prop : String) (v : JSValue) :
    (objSetField st oid prop v).log = st.log := by
  unfold objSetField
  split <;> rfl

/-- Strict equality on two handles holds exactly for the identical
handle. -/
theorem jsEq_handle_iff (a b : Nat) :
    jsEq (JSValue.handle a) (JSValue.handle b) = true ↔ a = b := by
  show (JSValue.handle a == JSValue.handle b) = true ↔ a = b
  rw [beq_iff_eq]
  exact ⟨fun h => JSValue.handle.inj h, fun h => by rw [h]⟩

/-! Lemmas about the downward propagation of dirty sets. -/

theorem metaDirtySetsOf_setMeta_self (st : St) (mid : Nat) (m : Meta) :
    metaDirtySetsOf (setMeta st mid m) mid = m.dirtySets := by
  unfold metaDirtySetsOf getMeta setMeta
  simp [alGet_alSet_self]

theorem metaDirtySetsOf_setMeta_ne (st : St) (mid mid' : Nat) (m : Meta) (h : mid' ≠ mid) :
    metaDirtySetsOf (setMeta st mid m) mid' = metaDirtySetsOf st mid' := by
  unfold metaDirtySetsOf getMeta setMeta
  rw [alGet_alSet_ne _ _ _ _ h]

theorem foldl_propagate_pres (fuel : Nat) (ds : Nat)
    (hp : ∀ (st : St) (mid mid' x : Nat), x ∈ metaDirtySetsOf st mid' →
        x ∈ metaDirtySetsOf (propagateDirtySets fuel st mid ds) mid') :
    ∀ (cs : List (String × Nat)) (st : St) (mid' x : Nat),
      x ∈ metaDirtySetsOf st mid' →
      x ∈ metaDirtySetsOf
        (cs.foldl (fun s c => propagateDirtySets fuel s c.2 ds) st) mid' := by
  intro cs
  induction cs with
  | nil =>
    intro st mid' x h
    exact h
  | cons c rest ih =>
    intro st mid' x h
    rw [List.foldl_cons]
    exact ih _ _ _ (hp _ _ _ _ h)

theorem propagateDirtySets_pres :
    ∀ (fuel : Nat) (st : St) (mid ds mid' x : Nat),
      x ∈ metaDirtySetsOf st mid' →
      x ∈ metaDirtySetsOf (propagateDirtySets fuel st mid ds) mid' := by
  intro fuel
  induction fuel with
  | zero =>
    intro st mid ds mid' x h
    exact h
  | succ n ih =>
    intro st mid ds mid' x h
    simp only [propagateDirtySets]
    split
    · exact h
    · rename_i m hm
      split
      · exact h
      · apply foldl_propagate_pres n ds (fun s a b c => ih s a ds b c)
        by_cases hmid : mid' = mid
        · subst hmid
          rw [metaDirtySetsOf_setMeta_self]
          have hobs : metaDirtySetsOf st mid' = m.dirtySets := by
            unfold metaDirtySetsOf
            rw [hm]
            rfl
          rw [hobs] at h
          simp [h]
        · rw [metaDirtySetsOf_setMeta_ne _ _ _ _ hmid]
          exact h

theorem propagateDirtySets_connects (fuel : Nat) (st : St) (mid ds : Nat)
    (h : (getMeta st mid).isSome = true) :
    ds ∈ metaDirtySetsOf (propagateDirtySets (fuel + 1) st mid ds) mid := by
  simp only [propagateDirtySets]
  split
  · rename_i hm
    rw [hm] at h
    cases h
  · rename_i m hm
    split
    · rename_i hds
      unfold metaDirtySetsOf
      rw [hm]
      exact hds
    · apply foldl_propagate_pres fuel ds
        (fun s a b c => propagateDirtySets_pres fuel s a ds b c)
      rw [metaDirtySetsOf_setMeta_self]
      simp

/-! The shape of a delivery's additions to the invocation log. -/

theorem notifyLoop_log_shape (dsId : Nat) (paths : List String) :
    ∀ (fuel : Nat) (st : St) (visited : List Nat),
      ∃ l, (notifyLoop dsId paths fuel st visited).log = st.log ++ l ∧
        (l.map Prod.fst).Nodup ∧
        (∀ e ∈ l, e.2 = paths) ∧
        (∀ c ∈ l.map Prod.fst, c ∉ visited) := by
  intro fuel
  induction fuel with
  | zero =>
    intro st visited
    exact ⟨[], by simp [notifyLoop], by simp, by simp, by simp⟩
  | succ n ih =>
    intro st visited
    unfold notifyLoop
    split
    · exact ⟨[], by simp, by simp, by simp, by simp⟩
    · rename_i c hfind
      have hnotv : c ∉ visited := by
        have := List.find?_some hfind
        exact of_decide_eq_true this
      obtain ⟨l', h1, h2, h3, h4⟩ := ih (cbInvoke st c paths) (visited ++ [c])
      refine ⟨(c, paths) :: l', ?_, ?_, ?_, ?_⟩
      · rw [h1, cbInvoke_log]
        simp
      · simp only [List.map_cons, List.nodup_cons]
        constructor
        · intro hc
          have := h4 c hc
          simp at this
        · exact h2
      · intro e he
        rcases List.mem_cons.mp he with rfl | hmem
        · rfl
        · exact h3 e hmem
      · intro c' hc'
        rcases List.mem_cons.mp hc' with rfl | hmem
        · exact hnotv
        · intro hcv
          exact h4 c' hmem (by simp [hcv])

/-! Structural-frame lemmas for the no-op write. -/

theorem proxySetWrite_frame (st : St) (mid : Nat) (m : Meta) (prop : String)
    (v old : JSValue) (h : jsEq old v = true) :
    (proxySetWrite st mid m prop v old).dirty = st.dirty ∧
    (proxySetWrite st mid m prop v old).log = st.log := by
  simp only [proxySetWrite]
  rw [if_pos h]
  exact ⟨by rw [objSetField_dirty, setMeta_dirty], by rw [objSetField_log, setMeta_log]⟩

theorem containerMethodCall_nonmutating (st : St) (mid : Nat) (prop : String)
    (k : ContainerKind) (hk : metaKindOf st mid = some (ObjKind.container k))
    (hm : isMutatingMethod k prop = false) :
    containerMethodCall st mid prop = st := by
  unfold metaKindOf at hk
  unfold containerMethodCall
  split
  · rfl
  · rename_i m hmm
    rw [hmm] at hk
    split
    · rfl
    · rename_i o ho
      have hk' : o.kind = ObjKind.container k := by
        have h1 : (match alGet st.objs m.targetId with
          | none => none
          | some o => some o.kind) = some (ObjKind.container k) := hk
        rw [ho] at h1
        exact Option.some.inj h1
      split
      · rfl
      · rename_i k' hkk
        rw [hkk] at hk'
        have hke : k' = k := ObjKind.container.inj hk'
        subst hke
        rw [if_neg (by simp [hm])]

theorem markContainerDirty_of_nil (st : St) (mid : Nat)
    (h : ∀ pwd ∈ collectPathsWithDirtySets st mid, pwd.path = []) :
    markContainerDirty st mid = st := by
  unfold markContainerDirty
  rw [foldl_containerStep_of_nil _ _ h]
  rfl

/-! The claims. -/

/-- C1.  Dirty-on-change: every write of a value unequal to the old value
under strict equality (`NaN` over `NaN` is a change, `-0` over `0` is
not) makes the written key's full dotted path, and every strict ancestor
prefix of it, a member of every change-set the collection walk reaches
from the mutated node; in particular for a root `{a: {b: {c: 0}}}`, after
`root.a.b.c = 1` the dirty paths equal `["a.b.c", "a.b", "a"]`. -/
theorem C1_dirty_on_change :
    (∀ (st : St) (mid : Nat) (key : String) (pwd : PathWithDirtySet),
        pwd ∈ collectPathsWithDirtySets st mid →
        joinDots (pwd.path ++ [key]) ∈
          dirtyGet (markDirtyWithParents st mid key) pwd.dirtySet ∧
        ∀ i, 0 < i → i ≤ pwd.path.length →
          joinDots (pwd.path.take i) ∈
            dirtyGet (markDirtyWithParents st mid key) pwd.dirtySet) ∧
    jsEq JSValue.nan JSValue.nan = false ∧
    jsEq (JSValue.num 0) JSValue.negZero = true ∧
    dirtyGet c1Fin 0 = ["a.b.c", "a.b", "a"] ∧
    dirtyGet nzA 0 = [] ∧
    dirtyGet nzB 0 = ["w"] := by
  refine ⟨?_, by decide, by decide, by decide, by decide, by decide⟩
  intro st mid key pwd hmem
  unfold markDirtyWithParents
  have h := foldl_markStep_adds key (collectPathsWithDirtySets st mid) (st, []) pwd hmem
  constructor
  · rw [dirtyGet_notifyMods]
    exact h.1
  · intro i h1 h2
    rw [dirtyGet_notifyMods]
    exact h.2 i h1 h2

/-- Witness for C1 at the concrete three-level scenario. -/
theorem C1_dirty_on_change_witness :
    joinDots (["a", "b"] ++ ["c"]) ∈ dirtyGet (markDirtyWithParents c1GB.1 2 "c") 0 ∧
    joinDots (["a", "b"].take 1) ∈ dirtyGet (markDirtyWithParents c1GB.1 2 "c") 0 :=
  ⟨(C1_dirty_on_change.1 c1GB.1 2 "c" ⟨["a", "b"], 0⟩ (by decide)).1,
   (C1_dirty_on_change.1 c1GB.1 2 "c" ⟨["a", "b"], 0⟩ (by decide)).2 1 (by decide) (by decide)⟩

/-- C2.  Multi-root fan-out: the shared `{value: 1}` under `foo` of
tracker 1 and `bar` of tracker 2, mutated through tracker 1's view,
dirties both trackers' change-sets with their own path prefixes, and
`markClean` on one change-set leaves every other change-set unchanged. -/
theorem C2_multi_root_fan_out :
    c2G.2 = JSValue.handle 0 ∧
    dirtyGet c2W 1 = ["foo.value", "foo"] ∧
    dirtyGet c2W 2 = ["bar.value", "bar"] ∧
    dirtyGet (markClean c2W 1) 1 = [] ∧
    dirtyGet (markClean c2W 1) 2 = ["bar.value", "bar"] ∧
    (∀ (st : St) (ds ds' : Nat), ds' ≠ ds →
        dirtyGet (markClean st ds) ds' = dirtyGet st ds') := by
  refine ⟨by decide, by decide, by decide, by decide, by decide, ?_⟩
  intro st ds ds' hne
  unfold markClean dirtyGet
  rw [alGet_alSet_ne _ _ _ _ hne]

/-- Witness for C2's general markClean frame at the concrete scenario. -/
theorem C2_multi_root_fan_out_witness :
    dirtyGet (markClean c2W 1) 2 = dirtyGet c2W 2 :=
  C2_multi_root_fan_out.2.2.2.2.2 c2W 1 2 (by decide)

/-- C3.  Diamond fan-in: the node shared via `x.p` and `y.q` has both
parent edges registered, and mutating it records both chains' full paths
and all their ancestors in the tracker's change-set — the per-branch
cycle guard does not stop the second branch from being recorded. -/
theorem C3_diamond_fan_in :
    alGet c3Mk.1.proxyCache 23 = some 2 ∧
    (getMeta c3Mk.1 2).map Meta.parents = some [⟨1, "p"⟩, ⟨3, "q"⟩] ∧
    dirtyGet c3Fin 0 = ["x.p.v", "x.p", "x", "y.q.v", "y.q", "y"] := by
  refine ⟨by decide, by decide, by decide⟩

/-- C4.  Container granularity: a mutating container method marks exactly
the container's own path and its strict ancestors — never a sub-key
path — and a method not classified as mutating changes no tracking state
at all. -/
theorem C4_container_granularity :
    (∀ (st : St) (mid : Nat) (prop : String) (k : ContainerKind),
        metaKindOf st mid = some (ObjKind.container k) →
        isMutatingMethod k prop = false →
        containerMethodCall st mid prop = st) ∧
    isMutatingMethod ContainerKind.mapK "set" = true ∧
    dirtyGet c4Fin 0 = ["a.m", "a"] ∧
    containerMethodCall c4Mk.1 2 "get" = c4Mk.1 := by
  refine ⟨?_, by decide, by decide, by decide⟩
  intro st mid prop k hk hm
  exact containerMethodCall_nonmutating st mid prop k hk hm

/-- Witness for C4's non-mutating clause at the concrete tracked map. -/
theorem C4_container_granularity_witness :
    containerMethodCall c4Mk.1 2 "size" = c4Mk.1 :=
  C4_container_granularity.1 c4Mk.1 2 "size" ContainerKind.mapK (by decide) (by decide)

/-- C5.  No-op on identical write: assigning the cached child's own
handle back to its field returns the state unchanged; more generally any
write whose value is strictly equal to the old value leaves every dirty
set and the delivery log untouched; and two handles are strictly equal
exactly when they are the identical handle. -/
theorem C5_noop_identical_write :
    (∀ (st : St) (mid : Nat) (prop : String) (cid : Nat),
        childLookup st mid prop = some cid →
        proxySet st mid prop (JSValue.handle cid) = st) ∧
    (∀ (st : St) (mid : Nat) (prop : String) (v : JSValue),
        jsEq (oldValueAt st mid prop) v = true →
        (proxySet st mid prop v).dirty = st.dirty ∧
        (proxySet st mid prop v).log = st.log) ∧
    (∀ a b : Nat, jsEq (JSValue.handle a) (JSValue.handle b) = true ↔ a = b) ∧
    proxySet c5A.1 0 "child" (JSValue.handle 1) = c5A.1 := by
  refine ⟨?_, ?_, jsEq_handle_iff, by decide⟩
  · intro st mid prop cid h
    unfold childLookup at h
    unfold proxySet
    split
    · rfl
    · rename_i m hm
      rw [hm] at h
      have h' : alGet m.children prop = some cid := h
      split
      · rename_i cid' hcid
        rw [h'] at hcid
        have hcc : cid = cid' := Option.some.inj hcid
        subst hcc
        rw [if_pos ((jsEq_handle_iff cid cid).mpr rfl)]
      · rename_i hcid
        rw [h'] at hcid
        cases hcid
  · intro st mid prop v h
    unfold proxySet
    split
    · exact ⟨rfl, rfl⟩
    · rename_i m hm
      have hold : oldValueAt st mid prop = objFieldGet st m.targetId prop := by
        unfold oldValueAt
        rw [hm]
      rw [hold] at h
      split
      · rename_i cid hcid
        split
        · exact ⟨rfl, rfl⟩
        · exact proxySetWrite_frame st mid m prop v _ h
      · exact proxySetWrite_frame st mid m prop v _ h

/-- Witness for C5 at the concrete scenario: assigning the cached child's
handle back, and rewriting a field with a strictly equal value. -/
theorem C5_noop_identical_write_witness :
    proxySet c5A.1 0 "child" (JSValue.handle 1) = c5A.1 ∧
    (proxySet c5A.1 1 "n" (JSValue.num 0)).dirty = c5A.1.dirty :=
  ⟨C5_noop_identical_write.1 c5A.1 0 "child" 1 (by decide),
   (C5_noop_identical_write.2.1 c5A.1 1 "n" (JSValue.num 0) (by decide)).1⟩

/-- C6, counterexample.  The claim that every callback subscribed at
mutation time is invoked exactly once fails: with callbacks 1 and 2 both
subscribed (callback 1's behaviour unsubscribes callback 2), the mutation
`x = 1` adds a new path, yet the delivery log records only callback 1 —
callback 2 is invoked zero times. -/
theorem C6_counterexample :
    dirtyGet c6ceB 0 = [] ∧
    dirtyGet c6ceFin 0 = ["x"] ∧
    alGet c6ceB.watchers 0 = some [1, 2] ∧
    c6ceFin.log = [(1, ["x"])] ∧
    (c6ceFin.log.map Prod.fst).count 2 = 0 := by
  refine ⟨by decide, by decide, by decide, by decide, by decide⟩

/-- C6, amended.  A mutation that adds new paths notifies each affected
change-set once — not once per path — and the delivery hands every
reached callback, exactly once, a snapshot of the full cumulative dirty
state: in the concrete scenario one write adds three paths and each of
the two callbacks is invoked exactly once with all four accumulated
paths; in general a delivery loop invokes no callback twice and passes
every invocation the same snapshot. -/
theorem C6_amended :
    c6amFin.log = [(5, ["z", "a.b.c", "a.b", "a"]), (6, ["z", "a.b.c", "a.b", "a"])] ∧
    (∀ (fuel : Nat) (st : St) (dsId : Nat) (paths : List String) (visited : List Nat),
        ∃ l, (notifyLoop dsId paths fuel st visited).log = st.log ++ l ∧
          (l.map Prod.fst).Nodup ∧
          (∀ e ∈ l, e.2 = paths) ∧
          (∀ c ∈ l.map Prod.fst, c ∉ visited)) := by
  refine ⟨by decide, ?_⟩
  intro fuel st dsId paths visited
  exact notifyLoop_log_shape dsId paths fuel st visited

/-- Witness for C6's amended delivery-shape clause at a concrete loop. -/
theorem C6_amended_witness :
    ∃ l, (notifyLoop 0 ["x"] 3 c6ceB []).log = c6ceB.log ++ l ∧
      (l.map Prod.fst).Nodup ∧
      (∀ e ∈ l, e.2 = ["x"]) ∧
      (∀ c ∈ l.map Prod.fst, c ∉ ([] : List Nat)) :=
  C6_amended.2 3 c6ceB 0 ["x"] []

/-- C7, counterexample.  The claim that every callback registered when
delivery began is still invoked fails: callbacks 3 and 4 are both
registered, callback 3 unsubscribes the not-yet-reached callback 4
during delivery, and the log shows callback 4 was never invoked for that
notification. -/
theorem C7_counterexample :
    alGet c7ceB.watchers 0 = some [3, 4] ∧
    c7ceFin.log = [(3, ["y"])] ∧
    (c7ceFin.log.map Prod.fst).count 4 = 0 := by
  refine ⟨by decide, by decide, by decide⟩

/-- C7, amended.  A callback that unsubscribes itself, or one that
unsubscribes an already-invoked callback, does not affect the current
delivery: both initially-registered callbacks are still invoked; the
unsubscription takes effect from the next notification on.  Only
unsubscribing a callback not yet reached suppresses its delivery. -/
theorem C7_amended :
    c7amC.log = [(7, ["y"]), (8, ["y"])] ∧
    c7amFin.log = [(7, ["y"]), (8, ["y"]), (8, ["y"])] ∧
    c7bFin.log = [(11, ["y"]), (12, ["y"])] ∧
    alGet c7bFin.watchers 0 = some [12] := by
  refine ⟨by decide, by decide, by decide, by decide⟩

/-- C8, counterexample.  The claim that a connected change-set reaches
every descendant, including children wrapped after the connection, fails:
dirty set 1 is connected to the shared node (meta 0), the new child under
`k` (meta 3) is wrapped afterwards, and it carries only the creation
dirty set 0 — dirty set 1 never reaches it. -/
theorem C8_counterexample :
    (1 : Nat) ∈ metaDirtySetsOf c8E.1 0 ∧
    childLookup c8E.1 0 "k" = some 3 ∧
    metaDirtySetsOf c8E.1 3 = [0] ∧
    (1 : Nat) ∉ metaDirtySetsOf c8E.1 3 := by
  refine ⟨by decide, by decide, by decide, by decide⟩

/-- C8, amended.  Connected change-sets are never removed
(`propagateDirtySets` only ever preserves existing connections), a
propagation connects the set to the target node, and at connection time
the set reaches every descendant then present — but a child wrapped for
the first time after the connection receives only the dirty set captured
at its parent's creation. -/
theorem C8_amended :
    (∀ (fuel : Nat) (st : St) (mid ds mid' x : Nat),
        x ∈ metaDirtySetsOf st mid' →
        x ∈ metaDirtySetsOf (propagateDirtySets fuel st mid ds) mid') ∧
    (∀ (fuel : Nat) (st : St) (mid ds : Nat), (getMeta st mid).isSome = true →
        ds ∈ metaDirtySetsOf (propagateDirtySets (fuel + 1) st mid ds) mid) ∧
    (1 : Nat) ∈ metaDirtySetsOf c8C.1 1 ∧
    metaDirtySetsOf c8E.1 3 = [0] := by
  refine ⟨propagateDirtySets_pres, ?_, by decide, by decide⟩
  intro fuel st mid ds h
  exact propagateDirtySets_connects fuel st mid ds h

/-- Witness for C8's amended propagation clauses at the concrete state. -/
theorem C8_amended_witness :
    (0 : Nat) ∈ metaDirtySetsOf (propagateDirtySets 1 c8C.1 0 5) 0 ∧
    (5 : Nat) ∈ metaDirtySetsOf (propagateDirtySets 1 c8C.1 0 5) 0 :=
  ⟨C8_amended.1 1 c8C.1 0 5 0 0 (by decide),
   C8_amended.2.1 0 c8C.1 0 5 (by decide)⟩

/-- C9, counterexample.  The claim that a failed construction over a
frozen value leaves no tracking handle registered fails: constructing an
observable over the frozen object 90 does raise the construction error,
but the proxy cache still maps the object to the handle created before
the failing metadata attachment. -/
theorem C9_counterexample :
    c9R.2 = none ∧
    alGet c9R.1.proxyCache 90 = some 0 := by
  refine ⟨by decide, by decide⟩

/-- C9, amended.  Constructing a tracker over a frozen or sealed value
fails with a construction error, but the handle built before the failing
hidden-property attachment remains registered (proxy cache entry, node
record, and root registration all persist); over an extensible value the
construction succeeds. -/
theorem C9_amended :
    c9R.2 = none ∧
    alGet c9R.1.proxyCache 90 = some 0 ∧
    (getMeta c9R.1 0).isSome = true ∧
    (getMeta c9R.1 0).map Meta.rootDirtySet = some (some 0) ∧
    c9okR.2 = some (0, 0) := by
  refine ⟨by decide, by decide, by decide, by decide, by decide⟩

/-- C10.  A tracker whose root target is itself a container: a mutating
method call on the root handle changes nothing — the collection walk
yields only the empty path, `markContainerDirty` records a path only when
the accumulated path is non-empty, so no path is added and no
notification fires even with a callback subscribed. -/
theorem C10_root_container_mutation_silent :
    (∀ (st : St) (mid : Nat),
        (∀ pwd ∈ collectPathsWithDirtySets st mid, pwd.path = []) →
        markContainerDirty st mid = st) ∧
    alGet c10B.watchers 0 = some [9] ∧
    containerMethodCall c10B 0 "set" = c10B ∧
    dirtyGet c10Fin 0 = [] ∧
    c10Fin.log = [] := by
  refine ⟨?_, by decide, by decide, by decide, by decide⟩
  intro st mid h
  exact markContainerDirty_of_nil st mid h

/-- Witness for C10's general empty-path clause at the container root. -/
theorem C10_root_container_mutation_silent_witness :
    markContainerDirty c10B 0 = c10B :=
  C10_root_container_mutation_silent.1 c10B 0 (by decide)

end Observable
